import Mathlib

/-!
# Verification of the MCX authoritative shooter core (src/mcx.js)

A shallow embedding of the server-side game core of `mcx.js`: the entity
model (players, bullets), the input gateway (`socket.on('input')`), the
connection lifecycle, the fixed-rate simulation tick (movement, bullet
integration, collision, respawn) and the state-transition system they
generate.  Machine numbers of the source are embedded as follows: JS number
fields that only ever hold integer millisecond timestamps or integer health
are `ℤ`; JS numbers arriving in input messages are `ℚ` (every finite IEEE
double is rational; NaN/Infinity are outside the model); positions,
velocities and angles computed with `Math.cos` / `Math.sin` / `Math.hypot`
are `ℝ`.  JS truthiness (`!!v`, `if (v)`, `a || b`) is modelled explicitly.
-/

/-! ## Configuration constants (mcx.js lines 21-31) -/

def WORLD_WIDTH : ℝ := 1200
def WORLD_HEIGHT : ℝ := 800
def PLAYER_RADIUS : ℝ := 16
def PLAYER_SPEED : ℝ := 220
def PLAYER_MAX_HEALTH : ℤ := 100
def RESPAWN_TIME : ℤ := 2000
def BULLET_SPEED : ℝ := 600
def BULLET_RADIUS : ℝ := 4
def BULLET_LIFETIME : ℤ := 2000
def SHOOT_COOLDOWN : ℤ := 200

/-! ## JS values and truthiness -/

/-- A JS value as it can appear in a field of a client input message:
`undefined` (also covering `null` and an absent property), a boolean, a
finite number (every finite double is a rational), or a string. -/
inductive JSVal where
  | undef : JSVal
  | bool : Bool → JSVal
  | num : ℚ → JSVal
  | str : String → JSVal
deriving DecidableEq

/-- JS truthiness: `undefined`, `false`, `0` and `""` are falsy; everything
else in the model is truthy.  This is what `!!v` and `if (v)` test. -/
def truthy : JSVal → Bool
  | JSVal.undef => false
  | JSVal.bool b => b
  | JSVal.num q => decide (q ≠ 0)
  | JSVal.str s => decide (s ≠ "")

/-- Whether `typeof v === 'number'` holds. -/
def isNum : JSVal → Bool
  | JSVal.num _ => true
  | _ => false

/-! ## Entities (mcx.js lines 34-35, 55-67, 91-99) -/

/-- The staged input of a player (`p.input`), as initialised at connect and
overwritten by the input handler. -/
structure PInput where
  up : Bool
  down : Bool
  left : Bool
  right : Bool
  mouseAngle : ℚ
  shoot : Bool
deriving DecidableEq

/-- A player entity (`players[socketId]`). -/
structure Player where
  id : String
  x : ℝ
  y : ℝ
  vx : ℝ
  vy : ℝ
  angle : ℝ
  input : PInput
  health : ℤ
  alive : Bool
  lastShot : ℤ
  respawnAt : ℤ

/-- A projectile entity (`bullets[bulletId]`). -/
structure Bullet where
  id : ℕ
  x : ℝ
  y : ℝ
  vx : ℝ
  vy : ℝ
  ownerId : String
  born : ℤ

/-- An incoming `input` message: six fields, each possibly absent or of the
wrong type, hence each a `JSVal`. -/
structure InMsg where
  up : JSVal
  down : JSVal
  left : JSVal
  right : JSVal
  mouseAngle : JSVal
  shoot : JSVal
deriving DecidableEq

/-! ## Input gateway (mcx.js lines 71-102) -/

/-- Field staging of the input handler (lines 75-79): the four direction
fields are coerced by `!!` (absent or wrong-typed means `false`), the aim
angle is assigned only when `typeof input.mouseAngle === 'number'`, and
`p.input.shoot` is never written by the server. -/
def stageInput (i : PInput) (m : InMsg) : PInput :=
  { up := truthy m.up
    down := truthy m.down
    left := truthy m.left
    right := truthy m.right
    mouseAngle := match m.mouseAngle with
      | JSVal.num q => q
      | _ => i.mouseAngle
    shoot := i.shoot }

/-- The shoot attempt (lines 80-101): eligible when the cooldown has
elapsed (`now - p.lastShot >= SHOOT_COOLDOWN`) and the player is alive;
then the last-shot timestamp is recorded and one bullet is spawned, offset
from the player centre along the staged aim angle and given velocity
`(cos, sin)(angle) * BULLET_SPEED`.  Otherwise a silent no-op. -/
noncomputable def tryShoot (p : Player) (now : ℤ) (nid : ℕ) : Player × Option Bullet :=
  if SHOOT_COOLDOWN ≤ now - p.lastShot ∧ p.alive = true then
    ({ p with lastShot := now },
      some { id := nid
             x := p.x + Real.cos (p.input.mouseAngle : ℝ) * (PLAYER_RADIUS + BULLET_RADIUS + 2)
             y := p.y + Real.sin (p.input.mouseAngle : ℝ) * (PLAYER_RADIUS + BULLET_RADIUS + 2)
             vx := Real.cos (p.input.mouseAngle : ℝ) * BULLET_SPEED
             vy := Real.sin (p.input.mouseAngle : ℝ) * BULLET_SPEED
             ownerId := p.id
             born := now })
  else (p, none)

/-- The whole `socket.on('input')` handler body for a present player
(lines 75-101): stage the fields, then, when the shoot field is truthy,
attempt the shot (which reads the freshly staged aim angle). -/
noncomputable def handleInput (p : Player) (m : InMsg) (now : ℤ) (nid : ℕ) :
    Player × Option Bullet :=
  let p1 := { p with input := stageInput p.input m }
  if truthy m.shoot then tryShoot p1 now nid else (p1, none)

/-! ## Simulation tick: per-player update (mcx.js lines 117-145) -/

/-- JS `a || b` on two non-NaN numbers: `b` when `a` is `0`, else `a`. -/
noncomputable def jsOr (a b : ℝ) : ℝ := if a = 0 then b else a

/-- The alive branch of the per-player tick (lines 130-144): derive a
direction from the staged booleans (up is negative y), divide by
`Math.hypot(dx, dy) || 1` and scale by `PLAYER_SPEED` to get the velocity,
integrate the position by `dt`, clamp it into the world minus the player
radius, and update the facing angle by `p.input.mouseAngle || p.angle`. -/
noncomputable def aliveStep (dt : ℝ) (p : Player) : Player :=
  let dx : ℝ := (if p.input.left then -1 else 0) + (if p.input.right then 1 else 0)
  let dy : ℝ := (if p.input.up then -1 else 0) + (if p.input.down then 1 else 0)
  let len : ℝ := jsOr (Real.sqrt (dx ^ 2 + dy ^ 2)) 1
  let vx := dx / len * PLAYER_SPEED
  let vy := dy / len * PLAYER_SPEED
  let x := max PLAYER_RADIUS (min (WORLD_WIDTH - PLAYER_RADIUS) (p.x + vx * dt))
  let y := max PLAYER_RADIUS (min (WORLD_HEIGHT - PLAYER_RADIUS) (p.y + vy * dt))
  let angle := if p.input.mouseAngle = 0 then p.angle else (p.input.mouseAngle : ℝ)
  { p with vx := vx, vy := vy, x := x, y := y, angle := angle }

/-- One player's share of a tick (lines 118-145): a dead player respawns
when its respawn deadline is set (JS-truthy, i.e. nonzero) and reached —
alive again, full health, fresh random position, deadline cleared — and is
otherwise skipped; an alive player runs the movement step.  `rand` supplies
the two `Math.random()` draws of the respawn branch. -/
noncomputable def playerTick (now : ℤ) (dt : ℝ) (rand : String → ℝ × ℝ) (p : Player) : Player :=
  if p.alive = true then aliveStep dt p
  else if p.respawnAt ≠ 0 ∧ p.respawnAt ≤ now then
    { p with alive := true
             health := PLAYER_MAX_HEALTH
             x := (rand p.id).1 * (WORLD_WIDTH - 200) + 100
             y := (rand p.id).2 * (WORLD_HEIGHT - 200) + 100
             respawnAt := 0 }
  else p

/-! ## Simulation tick: bullets and collision (mcx.js lines 148-184) -/

/-- Bullet integration (lines 150-151). -/
def moveBullet (dt : ℝ) (b : Bullet) : Bullet :=
  { b with x := b.x + b.vx * dt, y := b.y + b.vy * dt }

/-- The out-of-bounds removal test (line 160): strictly more than 50 units
beyond any world edge. -/
def bulletOutOfBounds (b : Bullet) : Prop :=
  b.x < -50 ∨ WORLD_WIDTH + 50 < b.x ∨ b.y < -50 ∨ WORLD_HEIGHT + 50 < b.y

/-- The circle-overlap test of the collision scan (lines 169-173): squared
distance between centres at most the squared radius sum. -/
def hitTest (b : Bullet) (p : Player) : Prop :=
  (p.x - b.x) * (p.x - b.x) + (p.y - b.y) * (p.y - b.y) ≤
    (PLAYER_RADIUS + BULLET_RADIUS) * (PLAYER_RADIUS + BULLET_RADIUS)

/-- A player the scan may hit (line 168 skips the others): alive and not
the bullet's owner, and overlapping. -/
def eligibleHit (b : Bullet) (p : Player) : Prop :=
  p.alive = true ∧ p.id ≠ b.ownerId ∧ hitTest b p

noncomputable instance (b : Bullet) : Decidable (bulletOutOfBounds b) := by
  unfold bulletOutOfBounds; infer_instance

noncomputable instance (b : Bullet) (p : Player) : Decidable (hitTest b p) := by
  unfold hitTest; infer_instance

noncomputable instance (b : Bullet) (p : Player) : Decidable (eligibleHit b p) := by
  unfold eligibleHit; infer_instance

/-- The effect of a hit on the struck player (lines 175-179): 25 damage;
at health ≤ 0 the player dies and gets a respawn deadline. -/
def damage (now : ℤ) (p : Player) : Player :=
  if p.health - 25 ≤ 0 then
    { p with health := p.health - 25, alive := false, respawnAt := now + RESPAWN_TIME }
  else { p with health := p.health - 25 }

/-- The collision scan of one bullet over the player list (lines 166-183):
damage the first eligible overlapping player and stop; the returned flag
says whether a hit happened (in the source, whether `delete bullets[id]`
ran in the scan). -/
noncomputable def scanCollision (b : Bullet) (now : ℤ) : List Player → List Player × Bool
  | [] => ([], false)
  | p :: rest =>
    if eligibleHit b p then (damage now p :: rest, true)
    else
      let r := scanCollision b now rest
      (p :: r.1, r.2)

/-- One bullet's share of a tick (lines 148-184): move, then remove on
lifetime strictly exceeded (`now - b.born > BULLET_LIFETIME`), then on
leaving bounds by more than the margin, else run the collision scan and
remove exactly when it hit.  Returns the updated players and the surviving
bullet, if any. -/
noncomputable def stepBullet (ps : List Player) (b : Bullet) (now : ℤ) (dt : ℝ) :
    List Player × Option Bullet :=
  let b1 := moveBullet dt b
  if BULLET_LIFETIME < now - b.born then (ps, none)
  else if bulletOutOfBounds b1 then (ps, none)
  else
    let r := scanCollision b1 now ps
    (r.1, if r.2 then none else some b1)

/-- The bullet loop of a tick: bullets in id (insertion) order, each seeing
the player list as left by the previous bullet's scan. -/
noncomputable def stepBullets (now : ℤ) (dt : ℝ) :
    List Bullet → List Player → List Player × List Bullet
  | [], ps => (ps, [])
  | b :: rest, ps =>
    let r := stepBullet ps b now dt
    let rr := stepBullets now dt rest r.1
    (rr.1, r.2.toList ++ rr.2)

/-! ## The world and its operations (mcx.js lines 33-37, 51-114, 186) -/

/-- The authoritative world state: the two entity stores (as lists in JS
iteration order: socket-keyed players in insertion order, numerically keyed
bullets in ascending id order), the bullet id counter, and the tick clock's
`lastTick`. -/
structure World where
  players : List Player
  bullets : List Bullet
  nextBulletId : ℕ
  lastTick : ℤ

/-- The world at process start (lines 34-37, 110): no entities, bullet ids
from 1, `lastTick` the startup time. -/
def World.init (t0 : ℤ) : World :=
  { players := [], bullets := [], nextBulletId := 1, lastTick := t0 }

/-- The player created on connect (lines 52-67): random spawn position
`Math.random() * (W - 200) + 100` on each axis, zeroed velocity/angle,
default staged input, full health, alive. -/
noncomputable def Player.spawn (sid : String) (rx ry : ℝ) : Player :=
  { id := sid
    x := rx * (WORLD_WIDTH - 200) + 100
    y := ry * (WORLD_HEIGHT - 200) + 100
    vx := 0
    vy := 0
    angle := 0
    input := { up := false, down := false, left := false, right := false
               mouseAngle := 0, shoot := false }
    health := PLAYER_MAX_HEALTH
    alive := true
    lastShot := 0
    respawnAt := 0 }

/-- The connect handler (lines 51-67): register a fresh player under the
new session id. -/
noncomputable def World.connect (sid : String) (rx ry : ℝ) (w : World) : World :=
  { w with players := w.players ++ [Player.spawn sid rx ry] }

/-- The disconnect handler (lines 104-106): `delete players[socket.id]`,
unconditionally and without error when the key is absent. -/
def World.disconnect (sid : String) (w : World) : World :=
  { w with players := w.players.filter fun p => !(p.id == sid) }

/-- The input handler at world level (lines 71-102): an unknown session id
is a silent no-op (`if (!p) return`); otherwise the found player is
replaced by `handleInput`'s result and a spawned bullet, if any, is
appended under the next id, which is then advanced. -/
noncomputable def World.onInput (sid : String) (m : InMsg) (now : ℤ) (w : World) : World :=
  match w.players.find? (fun q => q.id == sid) with
  | none => w
  | some p =>
    let r := handleInput p m now w.nextBulletId
    { w with
        players := w.players.map fun q => if q.id == sid then r.1 else q
        bullets := w.bullets ++ r.2.toList
        nextBulletId := match r.2 with
          | some _ => w.nextBulletId + 1
          | none => w.nextBulletId }

/-- One simulation tick (lines 111-186): elapsed time clamped to 100 ms
and converted to seconds, every player updated, then every bullet moved,
expired and collided, the collision effects threading through the player
list. -/
noncomputable def World.tick (now : ℤ) (rand : String → ℝ × ℝ) (w : World) : World :=
  let dt : ℝ := ((min 100 (now - w.lastTick) : ℤ) : ℝ) / 1000
  let ps := w.players.map (playerTick now dt rand)
  let r := stepBullets now dt w.bullets ps
  { players := r.1, bullets := r.2, nextBulletId := w.nextBulletId, lastTick := now }

/-! ## Reachable world states

The environment of the core: any interleaving of connects (fresh session
ids, `Math.random` draws in `[0, 1)`), input messages, disconnects and
ticks (nondecreasing clock, `Math.random` draws in `[0, 1)`), from the
initial empty world. -/

/-- The in-range property of a `Math.random`-draw oracle for a tick. -/
def randRange (rand : String → ℝ × ℝ) : Prop :=
  ∀ s, 0 ≤ (rand s).1 ∧ (rand s).1 < 1 ∧ 0 ≤ (rand s).2 ∧ (rand s).2 < 1

/-- The worlds reachable by the server from process start. -/
inductive Reachable : World → Prop where
  | init (t0 : ℤ) : Reachable (World.init t0)
  | connect {w : World} (sid : String) (rx ry : ℝ)
      (hfresh : ∀ p ∈ w.players, p.id ≠ sid)
      (hx0 : 0 ≤ rx) (hx1 : rx < 1) (hy0 : 0 ≤ ry) (hy1 : ry < 1) :
      Reachable w → Reachable (w.connect sid rx ry)
  | input {w : World} (sid : String) (m : InMsg) (now : ℤ) :
      Reachable w → Reachable (w.onInput sid m now)
  | disconnect {w : World} (sid : String) :
      Reachable w → Reachable (w.disconnect sid)
  | tick {w : World} (now : ℤ) (rand : String → ℝ × ℝ)
      (hnow : w.lastTick ≤ now) (hrand : randRange rand) :
      Reachable w → Reachable (w.tick now rand)

/-! ## Concrete sample entities for evaluation -/

/-- The default staged input a player is created with (line 62). -/
def pinZero : PInput :=
  { up := false, down := false, left := false, right := false, mouseAngle := 0, shoot := false }

/-- An alive player with an old last shot. -/
noncomputable def pAliveReady : Player :=
  { id := "a", x := 300, y := 300, vx := 0, vy := 0, angle := 0, input := pinZero,
    health := 100, alive := true, lastShot := 0, respawnAt := 0 }

/-- A dead player whose cooldown has long elapsed and whose respawn
deadline is set. -/
noncomputable def pDead : Player :=
  { id := "d", x := 300, y := 300, vx := 0, vy := 0, angle := 0, input := pinZero,
    health := -5, alive := false, lastShot := 0, respawnAt := 500 }

/-- An alive player with `up` currently staged. -/
noncomputable def pStagedUp : Player :=
  { id := "s", x := 300, y := 300, vx := 0, vy := 0, angle := 0,
    input := { pinZero with up := true }, health := 100, alive := true,
    lastShot := 0, respawnAt := 0 }

/-- An input message with every field absent. -/
def mAllAbsent : InMsg :=
  { up := JSVal.undef, down := JSVal.undef, left := JSVal.undef, right := JSVal.undef,
    mouseAngle := JSVal.undef, shoot := JSVal.undef }

/-- A mixed input message: wrong-typed direction fields, a numeric aim
angle, and a truthy but non-boolean shoot field. -/
def mMixed : InMsg :=
  { up := JSVal.bool true, down := JSVal.undef, left := JSVal.str "", right := JSVal.num 3,
    mouseAngle := JSVal.num 2, shoot := JSVal.num 1 }

/-- An alive player facing angle 1 with the default staged input. -/
noncomputable def pAngleOne : Player :=
  { id := "g", x := 300, y := 300, vx := 0, vy := 0, angle := 1, input := pinZero,
    health := 100, alive := true, lastShot := 0, respawnAt := 0 }

/-- An input message staging the aim angle 0 (a legitimate `atan2` value:
aiming exactly along the positive x axis). -/
def mAimZero : InMsg :=
  { up := JSVal.undef, down := JSVal.undef, left := JSVal.undef, right := JSVal.undef,
    mouseAngle := JSVal.num 0, shoot := JSVal.undef }

/-- `pAngleOne` after the input handler staged the aim angle 0. -/
noncomputable def pC7 : Player := (handleInput pAngleOne mAimZero 5 1).1

/-- An alive player with staged aim angle 2. -/
noncomputable def pAim2 : Player :=
  { id := "h", x := 300, y := 300, vx := 0, vy := 0, angle := 0,
    input := { pinZero with mouseAngle := 2 }, health := 100, alive := true,
    lastShot := 0, respawnAt := 0 }

/-- An alive player holding up and right simultaneously. -/
noncomputable def pDiag : Player :=
  { id := "k", x := 300, y := 300, vx := 0, vy := 0, angle := 0,
    input := { pinZero with up := true, right := true }, health := 100, alive := true,
    lastShot := 0, respawnAt := 0 }

/-- A bullet whose age at time 2000 is exactly the lifetime, resting well
inside the world. -/
noncomputable def bStale : Bullet :=
  { id := 9, x := 100, y := 100, vx := 0, vy := 0, ownerId := "a", born := 0 }

/-- The per-player state invariant of the server: an alive player has
health within `[0, PLAYER_MAX_HEALTH]` and a position inside the world
minus the player radius; a dead player's health is at most 0. -/
def PlayerInv (p : Player) : Prop :=
  (p.alive = true → 0 ≤ p.health ∧ p.health ≤ PLAYER_MAX_HEALTH ∧
    PLAYER_RADIUS ≤ p.x ∧ p.x ≤ WORLD_WIDTH - PLAYER_RADIUS ∧
    PLAYER_RADIUS ≤ p.y ∧ p.y ≤ WORLD_HEIGHT - PLAYER_RADIUS) ∧
  (p.alive = false → p.health ≤ 0)

/-- The world invariant: every stored player satisfies `PlayerInv`. -/
def WorldInv (w : World) : Prop := ∀ p ∈ w.players, PlayerInv p

/-- A degenerate random oracle drawing 0 on both axes. -/
def randZero : String → ℝ × ℝ := fun _ => (0, 0)

/-- The world after one connect of session "a" with both random draws 0. -/
noncomputable def wOne : World := World.connect "a" 0 0 (World.init 0)

/-! # Theorems -/

/-- Projections of the input handler: it rewrites the staged input to
`stageInput` of the message, may rewrite `lastShot`, and touches no other
player field. -/
theorem handleInput_proj (p : Player) (m : InMsg) (now : ℤ) (nid : ℕ) :
    (handleInput p m now nid).1.input = stageInput p.input m ∧
    (handleInput p m now nid).1.health = p.health ∧
    (handleInput p m now nid).1.alive = p.alive ∧
    (handleInput p m now nid).1.x = p.x ∧
    (handleInput p m now nid).1.y = p.y ∧
    (handleInput p m now nid).1.vx = p.vx ∧
    (handleInput p m now nid).1.vy = p.vy ∧
    (handleInput p m now nid).1.angle = p.angle ∧
    (handleInput p m now nid).1.respawnAt = p.respawnAt ∧
    (handleInput p m now nid).1.id = p.id := by
  simp only [handleInput, tryShoot]
  split
  · split
    · exact ⟨rfl, rfl, rfl, rfl, rfl, rfl, rfl, rfl, rfl, rfl⟩
    · exact ⟨rfl, rfl, rfl, rfl, rfl, rfl, rfl, rfl, rfl, rfl⟩
  · exact ⟨rfl, rfl, rfl, rfl, rfl, rfl, rfl, rfl, rfl, rfl⟩

/-- C1 (amended): a shoot request arriving strictly less than the cooldown
interval after the player's previous accepted shot never spawns a bullet
and leaves the player untouched; one arriving at or after the cooldown,
from a player who is alive, records the new last-shot timestamp and spawns
exactly one bullet owned by that player. -/
theorem shoot_cooldown_gate (p : Player) (now : ℤ) (nid : ℕ) :
    (now - p.lastShot < SHOOT_COOLDOWN →
      (tryShoot p now nid).2 = none ∧ (tryShoot p now nid).1 = p) ∧
    (SHOOT_COOLDOWN ≤ now - p.lastShot → p.alive = true →
      ∃ b, (tryShoot p now nid).2 = some b ∧ b.ownerId = p.id ∧ b.id = nid ∧
        b.born = now ∧ (tryShoot p now nid).1.lastShot = now) := by
  constructor
  · intro h
    rw [tryShoot, if_neg]
    · exact ⟨rfl, rfl⟩
    · rintro ⟨h1, -⟩
      omega
  · intro h1 h2
    rw [tryShoot, if_pos ⟨h1, h2⟩]
    exact ⟨_, rfl, rfl, rfl, rfl, rfl⟩

/-- Witness for `shoot_cooldown_gate`: at 100 ms since the last shot the
request is dropped; at 1000 ms an alive player's request spawns the
bullet. -/
theorem shoot_cooldown_gate_witness :
    (tryShoot pAliveReady 100 1).2 = none ∧
    ∃ b, (tryShoot pAliveReady 1000 1).2 = some b ∧ b.ownerId = pAliveReady.id ∧
      b.id = 1 ∧ b.born = 1000 ∧ (tryShoot pAliveReady 1000 1).1.lastShot = 1000 :=
  ⟨((shoot_cooldown_gate pAliveReady 100 1).1 (by decide)).1,
   (shoot_cooldown_gate pAliveReady 1000 1).2 (by decide) rfl⟩

/-- C1 fails as stated: a dead player's shoot request arriving well past
the cooldown interval still spawns no projectile (the gate also requires
`p.alive`, line 83). -/
theorem shoot_cooldown_claim_counterexample :
    SHOOT_COOLDOWN ≤ 1000 - pDead.lastShot ∧ (tryShoot pDead 1000 7).2 = none :=
  ⟨by decide, rfl⟩

/-- C2 fails as stated: a player with `up` staged `true` who sends a
message with the `up` field absent has the staged value overwritten to
`false` (line 75 coerces with `!!` instead of leaving it unchanged). -/
theorem input_staging_claim_counterexample :
    pStagedUp.input.up = true ∧ mAllAbsent.up = JSVal.undef ∧
    (handleInput pStagedUp mAllAbsent 5 1).1.input.up = false :=
  ⟨rfl, rfl, rfl⟩

/-- C2 (amended): the four direction fields are coerced by JS truthiness —
an absent or wrong-typed field stages `false`, overwriting the prior value;
only the aim angle keeps its prior staged value unless the field is a
number; and the shoot action is attempted whenever the shoot field is
truthy (any truthy value, not only the boolean `true`). -/
theorem input_staging_amended (p : Player) (m : InMsg) (now : ℤ) (nid : ℕ) :
    (handleInput p m now nid).1.input.up = truthy m.up ∧
    (handleInput p m now nid).1.input.down = truthy m.down ∧
    (handleInput p m now nid).1.input.left = truthy m.left ∧
    (handleInput p m now nid).1.input.right = truthy m.right ∧
    (∀ q : ℚ, m.mouseAngle = JSVal.num q →
      (handleInput p m now nid).1.input.mouseAngle = q) ∧
    (isNum m.mouseAngle = false →
      (handleInput p m now nid).1.input.mouseAngle = p.input.mouseAngle) ∧
    (truthy m.shoot = false →
      (handleInput p m now nid).2 = none ∧ (handleInput p m now nid).1.lastShot = p.lastShot) ∧
    (truthy m.shoot = true → SHOOT_COOLDOWN ≤ now - p.lastShot → p.alive = true →
      ∃ b, (handleInput p m now nid).2 = some b) := by
  obtain ⟨hin, -⟩ := handleInput_proj p m now nid
  refine ⟨by rw [hin]; rfl, by rw [hin]; rfl, by rw [hin]; rfl, by rw [hin]; rfl,
    ?_, ?_, ?_, ?_⟩
  · intro q hq
    rw [hin]
    simp [stageInput, hq]
  · intro hq
    rw [hin]
    cases hm : m.mouseAngle
    · simp [stageInput, hm]
    · simp [stageInput, hm]
    · rw [hm] at hq; simp [isNum] at hq
    · simp [stageInput, hm]
  · intro hs
    simp only [handleInput]
    rw [if_neg (by simp [hs])]
    exact ⟨rfl, rfl⟩
  · intro hs h1 h2
    simp only [handleInput, hs, if_true]
    rw [tryShoot, if_pos ⟨h1, h2⟩]
    exact ⟨_, rfl⟩

/-- Witness for `input_staging_amended` at `mMixed`: the boolean-typed `up`
stages `true`, the numeric aim angle stages `2`, and the shoot field `1`
(truthy, not the boolean `true`) spawns a bullet. -/
theorem input_staging_amended_witness :
    (handleInput pStagedUp mMixed 1000 1).1.input.up = truthy mMixed.up ∧
    (handleInput pStagedUp mMixed 1000 1).1.input.mouseAngle = 2 ∧
    ∃ b, (handleInput pStagedUp mMixed 1000 1).2 = some b :=
  ⟨(input_staging_amended pStagedUp mMixed 1000 1).1,
   (input_staging_amended pStagedUp mMixed 1000 1).2.2.2.2.1 2 rfl,
   (input_staging_amended pStagedUp mMixed 1000 1).2.2.2.2.2.2.2 rfl (by decide) rfl⟩

/-- C7 fails as stated: a player who staged the aim angle 0 keeps the
previous facing angle after the tick, because line 144 updates with
`p.input.mouseAngle || p.angle` and 0 is falsy. -/
theorem angle_update_claim_counterexample :
    mAimZero.mouseAngle = JSVal.num 0 ∧ pC7.input.mouseAngle = 0 ∧
    (aliveStep 1 pC7).angle ≠ (pC7.input.mouseAngle : ℝ) := by
  refine ⟨rfl, rfl, ?_⟩
  have e : (aliveStep 1 pC7).angle = pC7.angle := by
    show (if pC7.input.mouseAngle = 0 then pC7.angle else (pC7.input.mouseAngle : ℝ)) =
      pC7.angle
    rw [if_pos (show pC7.input.mouseAngle = 0 from rfl)]
  rw [e, show pC7.angle = (1 : ℝ) from rfl, show pC7.input.mouseAngle = (0 : ℚ) from rfl]
  norm_num

/-- C7 (amended): on a tick an alive player's facing angle becomes the
staged aim angle whenever that staged value is nonzero; when the staged aim
angle is zero — the staged default when no aim has ever been staged, but
also a stageable `atan2` value — the previous angle is retained. -/
theorem angle_update_amended (dt : ℝ) (p : Player) :
    (p.input.mouseAngle ≠ 0 → (aliveStep dt p).angle = (p.input.mouseAngle : ℝ)) ∧
    (p.input.mouseAngle = 0 → (aliveStep dt p).angle = p.angle) := by
  constructor
  · intro h
    show (if p.input.mouseAngle = 0 then p.angle else (p.input.mouseAngle : ℝ)) = _
    rw [if_neg h]
  · intro h
    show (if p.input.mouseAngle = 0 then p.angle else (p.input.mouseAngle : ℝ)) = _
    rw [if_pos h]

/-- Witness for `angle_update_amended`: a staged angle 2 is adopted; the
zero default leaves the previous angle 1 in place. -/
theorem angle_update_amended_witness :
    (aliveStep 1 pAim2).angle = (pAim2.input.mouseAngle : ℝ) ∧
    (aliveStep 1 pAngleOne).angle = pAngleOne.angle :=
  ⟨(angle_update_amended 1 pAim2).1 (by decide),
   (angle_update_amended 1 pAngleOne).2 rfl⟩

/-- The squared axis contribution of two opposed staged direction booleans
of which exactly one is held. -/
theorem dir_sq (a b : Bool) (h : a ≠ b) :
    ((if a then (-1 : ℝ) else 0) + (if b then 1 else 0)) ^ 2 = 1 := by
  cases a <;> cases b <;> simp at h ⊢

/-- Normalisation of a diagonal direction: dividing a vector with both
squared components 1 by `Math.hypot(dx, dy) || 1` and scaling by a
nonnegative speed yields a vector of magnitude exactly that speed. -/
theorem diag_norm (dx dy : ℝ) (hdx : dx ^ 2 = 1) (hdy : dy ^ 2 = 1) (S : ℝ) (hS : 0 ≤ S) :
    Real.sqrt ((dx / jsOr (Real.sqrt (dx ^ 2 + dy ^ 2)) 1 * S) ^ 2 +
      (dy / jsOr (Real.sqrt (dx ^ 2 + dy ^ 2)) 1 * S) ^ 2) = S := by
  have h2 : dx ^ 2 + dy ^ 2 = 2 := by rw [hdx, hdy]; norm_num
  rw [h2]
  have hs2 : Real.sqrt 2 ≠ 0 := by positivity
  rw [jsOr, if_neg hs2]
  have hsq : Real.sqrt 2 ^ 2 = 2 := Real.sq_sqrt (by norm_num)
  have expand : (dx / Real.sqrt 2 * S) ^ 2 + (dy / Real.sqrt 2 * S) ^ 2
      = (dx ^ 2 + dy ^ 2) * S ^ 2 / Real.sqrt 2 ^ 2 := by ring
  rw [expand, hdx, hdy, hsq, show (1 + 1 : ℝ) * S ^ 2 / 2 = S ^ 2 by ring,
    Real.sqrt_sq hS]

/-- C8: an alive player holding one vertical and one horizontal direction
(a diagonal) gets a tick velocity of magnitude exactly `PLAYER_SPEED`, not
`PLAYER_SPEED * Real.sqrt 2`: the direction is normalised by its length
before scaling (lines 136-138). -/
theorem diagonal_speed (dt : ℝ) (p : Player)
    (hv : p.input.up ≠ p.input.down) (hh : p.input.left ≠ p.input.right) :
    Real.sqrt ((aliveStep dt p).vx ^ 2 + (aliveStep dt p).vy ^ 2) = PLAYER_SPEED := by
  have key := diag_norm
    ((if p.input.left then (-1 : ℝ) else 0) + (if p.input.right then 1 else 0))
    ((if p.input.up then (-1 : ℝ) else 0) + (if p.input.down then 1 else 0))
    (dir_sq _ _ hh) (dir_sq _ _ hv) PLAYER_SPEED (by norm_num [PLAYER_SPEED])
  exact key

/-- Witness for `diagonal_speed`: a player holding up and right moves at
exactly `PLAYER_SPEED`. -/
theorem diagonal_speed_witness :
    Real.sqrt ((aliveStep 1 pDiag).vx ^ 2 + (aliveStep 1 pDiag).vy ^ 2) = PLAYER_SPEED :=
  diagonal_speed 1 pDiag (by decide) (by decide)

/-- What the collision scan does, exhaustively: either no player is an
eligible overlap and the list is returned unchanged with no hit, or the
first eligible overlap, at index `k`, is damaged — all other entries
untouched — and the hit is flagged. -/
theorem scanCollision_spec (b : Bullet) (now : ℤ) (ps : List Player) :
    (scanCollision b now ps = (ps, false) ∧ ∀ p ∈ ps, ¬ eligibleHit b p) ∨
    (∃ k, ∃ hk : k < ps.length, eligibleHit b (ps.get ⟨k, hk⟩) ∧
      scanCollision b now ps = (ps.set k (damage now (ps.get ⟨k, hk⟩)), true)) := by
  induction ps with
  | nil => exact Or.inl ⟨rfl, by simp⟩
  | cons p rest ih =>
    by_cases hp : eligibleHit b p
    · refine Or.inr ⟨0, Nat.succ_pos _, hp, ?_⟩
      simp [scanCollision, hp, List.set]
    · rcases ih with ⟨heq, hnone⟩ | ⟨k, hk, helig, heq⟩
      · refine Or.inl ⟨?_, ?_⟩
        · simp [scanCollision, hp, heq]
        · intro q hq
          rcases List.mem_cons.mp hq with rfl | hq'
          · exact hp
          · exact hnone q hq'
      · refine Or.inr ⟨k + 1, Nat.succ_lt_succ hk, helig, ?_⟩
        simp [scanCollision, hp, heq, List.set]

/-- C3 (amended): a bullet is removed by the tick that moves it exactly
when, after that move, its age strictly exceeds the lifetime, or it lies
outside the world bounds by more than the margin on some side, or it
overlaps an eligible (alive, non-owner) player.  As the conditions are
re-evaluated every tick and the age condition is monotone, no bullet
persists past a tick whose checks it meets. -/
theorem bullet_removal_conditions (ps : List Player) (b : Bullet) (now : ℤ) (dt : ℝ) :
    (stepBullet ps b now dt).2 = none ↔
      BULLET_LIFETIME < now - b.born ∨ bulletOutOfBounds (moveBullet dt b) ∨
      ∃ p ∈ ps, eligibleHit (moveBullet dt b) p := by
  simp only [stepBullet]
  by_cases h1 : BULLET_LIFETIME < now - b.born
  · simp [h1]
  · rw [if_neg h1]
    by_cases h2 : bulletOutOfBounds (moveBullet dt b)
    · simp [h1, h2]
    · rw [if_neg h2]
      rcases scanCollision_spec (moveBullet dt b) now ps with ⟨heq, hnone⟩ | ⟨k, hk, helig, heq⟩
      · rw [heq]
        simp only [Bool.false_eq_true, if_false]
        constructor
        · intro habs
          exact absurd habs (by simp)
        · rintro (h | h | ⟨p, hp, hel⟩)
          · exact absurd h h1
          · exact absurd h h2
          · exact absurd hel (hnone p hp)
      · rw [heq]
        constructor
        · intro _
          exact Or.inr (Or.inr ⟨ps.get ⟨k, hk⟩, List.get_mem ps k hk, helig⟩)
        · intro _
          simp

/-- C3 fails as stated: a bullet whose age equals the lifetime exactly
(2000 ms) survives the tick, because line 154 removes only on
`now - b.born > BULLET_LIFETIME`, strictly. -/
theorem bullet_removal_claim_counterexample :
    BULLET_LIFETIME ≤ 2000 - bStale.born ∧
    (stepBullet [] bStale 2000 1).2 = some (moveBullet 1 bStale) := by
  refine ⟨by decide, ?_⟩
  simp only [stepBullet]
  rw [if_neg (by decide), if_neg (by norm_num [bulletOutOfBounds, moveBullet, bStale,
    WORLD_WIDTH, WORLD_HEIGHT])]
  simp [scanCollision]

/-- C4: over a tick, a bullet leaves the player list unchanged, or damages
exactly one player — alive, overlapping, and never the bullet's owner — and
is removed by that same tick, the scan stopping at the first hit.  Since a
damaging tick removes the bullet, a bullet damages at most one player over
its whole existence, and never its owner. -/
theorem bullet_single_victim (ps : List Player) (b : Bullet) (now : ℤ) (dt : ℝ) :
    (stepBullet ps b now dt).1 = ps ∨
    ∃ k, ∃ hk : k < ps.length,
      (ps.get ⟨k, hk⟩).alive = true ∧ (ps.get ⟨k, hk⟩).id ≠ b.ownerId ∧
      hitTest (moveBullet dt b) (ps.get ⟨k, hk⟩) ∧
      (stepBullet ps b now dt).1 = ps.set k (damage now (ps.get ⟨k, hk⟩)) ∧
      (stepBullet ps b now dt).2 = none := by
  simp only [stepBullet]
  by_cases h1 : BULLET_LIFETIME < now - b.born
  · rw [if_pos h1]
    exact Or.inl rfl
  · rw [if_neg h1]
    by_cases h2 : bulletOutOfBounds (moveBullet dt b)
    · rw [if_pos h2]
      exact Or.inl rfl
    · rw [if_neg h2]
      rcases scanCollision_spec (moveBullet dt b) now ps with ⟨heq, -⟩ | ⟨k, hk, helig, heq⟩
      · rw [heq]
        exact Or.inl rfl
      · rw [heq]
        exact Or.inr ⟨k, hk, helig.1, helig.2.1, helig.2.2, rfl, rfl⟩

/-- A spawn-formula x coordinate lies within the playable band. -/
theorem spawn_coord_x (r : ℝ) (h0 : 0 ≤ r) (h1 : r < 1) :
    PLAYER_RADIUS ≤ r * (WORLD_WIDTH - 200) + 100 ∧
    r * (WORLD_WIDTH - 200) + 100 ≤ WORLD_WIDTH - PLAYER_RADIUS := by
  unfold PLAYER_RADIUS WORLD_WIDTH
  constructor
  · nlinarith [mul_nonneg h0 (show (0:ℝ) ≤ 1000 by norm_num)]
  · nlinarith [mul_lt_mul_of_pos_right h1 (show (0:ℝ) < 1000 by norm_num)]

/-- A spawn-formula y coordinate lies within the playable band. -/
theorem spawn_coord_y (r : ℝ) (h0 : 0 ≤ r) (h1 : r < 1) :
    PLAYER_RADIUS ≤ r * (WORLD_HEIGHT - 200) + 100 ∧
    r * (WORLD_HEIGHT - 200) + 100 ≤ WORLD_HEIGHT - PLAYER_RADIUS := by
  unfold PLAYER_RADIUS WORLD_HEIGHT
  constructor
  · nlinarith [mul_nonneg h0 (show (0:ℝ) ≤ 600 by norm_num)]
  · nlinarith [mul_lt_mul_of_pos_right h1 (show (0:ℝ) < 600 by norm_num)]

/-- A freshly connected player satisfies the invariant. -/
theorem spawn_inv (sid : String) (rx ry : ℝ)
    (hx0 : 0 ≤ rx) (hx1 : rx < 1) (hy0 : 0 ≤ ry) (hy1 : ry < 1) :
    PlayerInv (Player.spawn sid rx ry) := by
  constructor
  · intro _
    refine ⟨by norm_num [Player.spawn, PLAYER_MAX_HEALTH],
      by norm_num [Player.spawn, PLAYER_MAX_HEALTH], ?_, ?_, ?_, ?_⟩
    · exact (spawn_coord_x rx hx0 hx1).1
    · exact (spawn_coord_x rx hx0 hx1).2
    · exact (spawn_coord_y ry hy0 hy1).1
    · exact (spawn_coord_y ry hy0 hy1).2
  · intro habs
    have : (true : Bool) = false := habs
    simp at this

/-- The movement step preserves the invariant: health and aliveness are
untouched, and the position clamp forces the bounds. -/
theorem aliveStep_inv (dt : ℝ) (p : Player) (hp : PlayerInv p) :
    PlayerInv (aliveStep dt p) := by
  constructor
  · intro ha
    have ha' : p.alive = true := ha
    obtain ⟨h0, h1, -, -, -, -⟩ := hp.1 ha'
    refine ⟨h0, h1, ?_, ?_, ?_, ?_⟩
    · exact le_max_left _ _
    · exact max_le (by norm_num [PLAYER_RADIUS, WORLD_WIDTH]) (min_le_left _ _)
    · exact le_max_left _ _
    · exact max_le (by norm_num [PLAYER_RADIUS, WORLD_HEIGHT]) (min_le_left _ _)
  · intro ha
    exact hp.2 ha

/-- The whole per-player tick preserves the invariant, given in-range
random draws for the respawn branch. -/
theorem playerTick_inv (now : ℤ) (dt : ℝ) (rand : String → ℝ × ℝ) (hr : randRange rand)
    (p : Player) (hp : PlayerInv p) : PlayerInv (playerTick now dt rand p) := by
  unfold playerTick
  by_cases ha : p.alive = true
  · rw [if_pos ha]
    exact aliveStep_inv dt p hp
  · rw [if_neg ha]
    by_cases hresp : p.respawnAt ≠ 0 ∧ p.respawnAt ≤ now
    · rw [if_pos hresp]
      constructor
      · intro _
        refine ⟨by norm_num [PLAYER_MAX_HEALTH], by norm_num [PLAYER_MAX_HEALTH],
          ?_, ?_, ?_, ?_⟩
        · exact (spawn_coord_x _ (hr p.id).1 (hr p.id).2.1).1
        · exact (spawn_coord_x _ (hr p.id).1 (hr p.id).2.1).2
        · exact (spawn_coord_y _ (hr p.id).2.2.1 (hr p.id).2.2.2).1
        · exact (spawn_coord_y _ (hr p.id).2.2.1 (hr p.id).2.2.2).2
      · intro habs
        have : (true : Bool) = false := habs
        simp at this
    · rw [if_neg hresp]
      exact hp

/-- A hit preserves the invariant: an alive victim either stays alive with
health in range or dies with health at most 0. -/
theorem damage_inv (now : ℤ) (p : Player) (hp : PlayerInv p) (ha : p.alive = true) :
    PlayerInv (damage now p) := by
  obtain ⟨h0, h1, hx1, hx2, hy1, hy2⟩ := hp.1 ha
  unfold damage
  by_cases hd : p.health - 25 ≤ 0
  · rw [if_pos hd]
    constructor
    · intro habs
      have : (false : Bool) = true := habs
      simp at this
    · intro _
      exact hd
  · rw [if_neg hd]
    constructor
    · intro _
      refine ⟨?_, ?_, hx1, hx2, hy1, hy2⟩
      · show 0 ≤ p.health - 25
        omega
      · have h1' : p.health ≤ 100 := by simpa [PLAYER_MAX_HEALTH] using h1
        show p.health - 25 ≤ PLAYER_MAX_HEALTH
        simp only [PLAYER_MAX_HEALTH]
        omega
    · intro habs
      have : p.alive = false := habs
      rw [ha] at this
      simp at this

/-- The collision scan preserves the invariant pointwise. -/
theorem scanCollision_inv (b : Bullet) (now : ℤ) (ps : List Player)
    (h : ∀ p ∈ ps, PlayerInv p) : ∀ q ∈ (scanCollision b now ps).1, PlayerInv q := by
  rcases scanCollision_spec b now ps with ⟨heq, -⟩ | ⟨k, hk, helig, heq⟩
  · rw [heq]
    exact h
  · rw [heq]
    intro q hq
    rcases List.mem_or_eq_of_mem_set hq with hq' | rfl
    · exact h q hq'
    · exact damage_inv now _ (h _ (List.get_mem ps k hk)) helig.1

/-- One bullet's tick share preserves the invariant. -/
theorem stepBullet_inv (ps : List Player) (b : Bullet) (now : ℤ) (dt : ℝ)
    (h : ∀ p ∈ ps, PlayerInv p) : ∀ q ∈ (stepBullet ps b now dt).1, PlayerInv q := by
  simp only [stepBullet]
  by_cases h1 : BULLET_LIFETIME < now - b.born
  · rw [if_pos h1]
    exact h
  · rw [if_neg h1]
    by_cases h2 : bulletOutOfBounds (moveBullet dt b)
    · rw [if_pos h2]
      exact h
    · rw [if_neg h2]
      exact scanCollision_inv (moveBullet dt b) now ps h

/-- The bullet loop preserves the invariant. -/
theorem stepBullets_inv (now : ℤ) (dt : ℝ) (bs : List Bullet) (ps : List Player)
    (h : ∀ p ∈ ps, PlayerInv p) : ∀ q ∈ (stepBullets now dt bs ps).1, PlayerInv q := by
  induction bs generalizing ps with
  | nil => simpa [stepBullets] using h
  | cons b rest ih =>
    simp only [stepBullets]
    exact ih _ (stepBullet_inv ps b now dt h)

/-- The input handler preserves the invariant: it never touches health,
aliveness or position. -/
theorem handleInput_inv (p : Player) (m : InMsg) (now : ℤ) (nid : ℕ)
    (hp : PlayerInv p) : PlayerInv (handleInput p m now nid).1 := by
  obtain ⟨-, hh, hal, hx, hy, -, -, -, -, -⟩ := handleInput_proj p m now nid
  constructor
  · intro ha
    rw [hal] at ha
    rw [hh, hx, hy]
    exact hp.1 ha
  · intro ha
    rw [hal] at ha
    rw [hh]
    exact hp.2 ha

/-- The initial world satisfies the invariant (vacuously). -/
theorem worldInv_init (t0 : ℤ) : WorldInv (World.init t0) := by
  intro p hp
  simp [World.init] at hp

/-- Connect preserves the invariant. -/
theorem worldInv_connect (sid : String) (rx ry : ℝ)
    (hx0 : 0 ≤ rx) (hx1 : rx < 1) (hy0 : 0 ≤ ry) (hy1 : ry < 1)
    (w : World) (h : WorldInv w) : WorldInv (w.connect sid rx ry) := by
  intro p hp
  rcases List.mem_append.mp hp with hp' | hp'
  · exact h p hp'
  · rw [List.mem_singleton.mp hp']
    exact spawn_inv sid rx ry hx0 hx1 hy0 hy1

/-- The input event preserves the invariant. -/
theorem worldInv_onInput (sid : String) (m : InMsg) (now : ℤ) (w : World)
    (h : WorldInv w) : WorldInv (w.onInput sid m now) := by
  unfold World.onInput
  cases hfind : w.players.find? (fun q => q.id == sid) with
  | none => exact h
  | some p =>
    intro q hq
    obtain ⟨q0, hq0, hfq⟩ := List.mem_map.mp hq
    by_cases hid : (q0.id == sid) = true
    · rw [if_pos hid] at hfq
      rw [← hfq]
      exact handleInput_inv p m now w.nextBulletId (h p (List.mem_of_find?_eq_some hfind))
    · rw [if_neg hid] at hfq
      rw [← hfq]
      exact h q0 hq0

/-- Disconnect preserves the invariant. -/
theorem worldInv_disconnect (sid : String) (w : World) (h : WorldInv w) :
    WorldInv (w.disconnect sid) := by
  intro p hp
  exact h p (List.mem_of_mem_filter hp)

/-- The simulation tick preserves the invariant. -/
theorem worldInv_tick (now : ℤ) (rand : String → ℝ × ℝ) (hr : randRange rand)
    (w : World) (h : WorldInv w) : WorldInv (w.tick now rand) := by
  unfold World.tick
  intro q hq
  refine stepBullets_inv now _ w.bullets _ ?_ q hq
  intro q' hq'
  obtain ⟨q0, hq0, rfl⟩ := List.mem_map.mp hq'
  exact playerTick_inv now _ rand hr q0 (h q0 hq0)

/-- Every reachable world satisfies the invariant. -/
theorem reachable_inv {w : World} (h : Reachable w) : WorldInv w := by
  induction h with
  | init t0 => exact worldInv_init t0
  | connect sid rx ry hfresh hx0 hx1 hy0 hy1 hw ih =>
    exact worldInv_connect sid rx ry hx0 hx1 hy0 hy1 _ ih
  | input sid m now hw ih => exact worldInv_onInput sid m now _ ih
  | disconnect sid hw ih => exact worldInv_disconnect sid _ ih
  | tick now rand hnow hrand hw ih => exact worldInv_tick now rand hrand _ ih

/-- `wOne` is reachable: one connect from the initial world. -/
theorem reachable_wOne : Reachable wOne :=
  Reachable.connect "a" 0 0 (fun p hp => absurd hp (List.not_mem_nil p))
    le_rfl zero_lt_one le_rfl zero_lt_one (Reachable.init 0)

/-- C5: in every reachable world, every alive player's health lies in
`[0, PLAYER_MAX_HEALTH]` and every dead player's health is at most 0; and
the tick that respawns a dead player (deadline set and reached) resets its
health to the maximum and revives it. -/
theorem health_invariant (w : World) (hw : Reachable w) :
    (∀ p ∈ w.players,
      (p.alive = true → 0 ≤ p.health ∧ p.health ≤ PLAYER_MAX_HEALTH) ∧
      (p.alive = false → p.health ≤ 0)) ∧
    (∀ (p : Player) (now : ℤ) (dt : ℝ) (rand : String → ℝ × ℝ),
      p.alive = false → p.respawnAt ≠ 0 → p.respawnAt ≤ now →
      (playerTick now dt rand p).health = PLAYER_MAX_HEALTH ∧
      (playerTick now dt rand p).alive = true) := by
  constructor
  · intro p hp
    have hinv := reachable_inv hw p hp
    exact ⟨fun ha => ⟨(hinv.1 ha).1, (hinv.1 ha).2.1⟩, hinv.2⟩
  · intro p now dt rand ha hr1 hr2
    unfold playerTick
    rw [if_neg (by rw [ha]; simp), if_pos ⟨hr1, hr2⟩]
    exact ⟨rfl, rfl⟩

/-- Witness for `health_invariant`: the spawned player of the reachable
world `wOne` has health in range, and a dead player whose deadline has
passed respawns at full health. -/
theorem health_invariant_witness :
    (0 ≤ (Player.spawn "a" 0 0).health ∧ (Player.spawn "a" 0 0).health ≤ PLAYER_MAX_HEALTH) ∧
    (playerTick 1000 1 randZero pDead).health = PLAYER_MAX_HEALTH ∧
    (playerTick 1000 1 randZero pDead).alive = true :=
  ⟨((health_invariant wOne reachable_wOne).1 (Player.spawn "a" 0 0)
      (by simp [wOne, World.connect, World.init])).1 rfl,
   (health_invariant wOne reachable_wOne).2 pDead 1000 1 randZero rfl
     (by decide) (by decide)⟩

/-- C6: in every reachable world, every alive player's position lies in
`[PLAYER_RADIUS, WORLD_WIDTH - PLAYER_RADIUS] ×
[PLAYER_RADIUS, WORLD_HEIGHT - PLAYER_RADIUS]` — established at spawn,
preserved by the movement clamp and by respawn. -/
theorem alive_position_bounds (w : World) (hw : Reachable w) (p : Player)
    (hp : p ∈ w.players) (ha : p.alive = true) :
    PLAYER_RADIUS ≤ p.x ∧ p.x ≤ WORLD_WIDTH - PLAYER_RADIUS ∧
    PLAYER_RADIUS ≤ p.y ∧ p.y ≤ WORLD_HEIGHT - PLAYER_RADIUS := by
  obtain ⟨-, -, h3, h4, h5, h6⟩ := (reachable_inv hw p hp).1 ha
  exact ⟨h3, h4, h5, h6⟩

/-- Witness for `alive_position_bounds` at the spawned player of `wOne`. -/
theorem alive_position_bounds_witness :
    PLAYER_RADIUS ≤ (Player.spawn "a" 0 0).x ∧
    (Player.spawn "a" 0 0).x ≤ WORLD_WIDTH - PLAYER_RADIUS ∧
    PLAYER_RADIUS ≤ (Player.spawn "a" 0 0).y ∧
    (Player.spawn "a" 0 0).y ≤ WORLD_HEIGHT - PLAYER_RADIUS :=
  alive_position_bounds wOne reachable_wOne (Player.spawn "a" 0 0)
    (by simp [wOne, World.connect, World.init]) rfl

/-- C10: for an alive player of a reachable world whose four staged
direction booleans are all false, the tick's normalisation divisor is the
guarded `Math.hypot(0,0) || 1 = 1`, the assigned velocity is exactly
`(0, 0)`, and the position is unchanged by the integration, the clamp
included (an alive player is always inside the clamp range). -/
theorem idle_input_no_motion (w : World) (hw : Reachable w) (p : Player)
    (hp : p ∈ w.players) (ha : p.alive = true)
    (hu : p.input.up = false) (hd : p.input.down = false)
    (hl : p.input.left = false) (hr : p.input.right = false)
    (now : ℤ) (dt : ℝ) (rand : String → ℝ × ℝ) :
    (playerTick now dt rand p).vx = 0 ∧ (playerTick now dt rand p).vy = 0 ∧
    (playerTick now dt rand p).x = p.x ∧ (playerTick now dt rand p).y = p.y := by
  obtain ⟨-, -, hx1, hx2, hy1, hy2⟩ := (reachable_inv hw p hp).1 ha
  have hstep : playerTick now dt rand p = aliveStep dt p := by
    unfold playerTick
    rw [if_pos ha]
  rw [hstep]
  have hvx : (aliveStep dt p).vx = 0 := by
    simp only [aliveStep, hu, hd, hl, hr]
    norm_num [jsOr, Real.sqrt_zero]
  have hvy : (aliveStep dt p).vy = 0 := by
    simp only [aliveStep, hu, hd, hl, hr]
    norm_num [jsOr, Real.sqrt_zero]
  have hxe : (aliveStep dt p).x = p.x := by
    simp only [aliveStep, hu, hd, hl, hr]
    norm_num [jsOr, Real.sqrt_zero]
    rw [min_eq_right hx2, max_eq_right hx1]
  have hye : (aliveStep dt p).y = p.y := by
    simp only [aliveStep, hu, hd, hl, hr]
    norm_num [jsOr, Real.sqrt_zero]
    rw [min_eq_right hy2, max_eq_right hy1]
  exact ⟨hvx, hvy, hxe, hye⟩

/-- Witness for `idle_input_no_motion`: the freshly spawned player of
`wOne` (all staged directions false) does not move on a tick. -/
theorem idle_input_no_motion_witness :
    (playerTick 7 1 randZero (Player.spawn "a" 0 0)).vx = 0 ∧
    (playerTick 7 1 randZero (Player.spawn "a" 0 0)).vy = 0 ∧
    (playerTick 7 1 randZero (Player.spawn "a" 0 0)).x = (Player.spawn "a" 0 0).x ∧
    (playerTick 7 1 randZero (Player.spawn "a" 0 0)).y = (Player.spawn "a" 0 0).y :=
  idle_input_no_motion wOne reachable_wOne (Player.spawn "a" 0 0)
    (by simp [wOne, World.connect, World.init]) rfl rfl rfl rfl rfl 7 1 randZero

/-- C9: disconnect is idempotent — removing a session twice equals
removing it once, and removing a session no stored player carries leaves
the world unchanged.  The operation is a total function: no error arises
for an absent identifier. -/
theorem disconnect_idempotent (sid : String) (w : World) :
    World.disconnect sid (World.disconnect sid w) = World.disconnect sid w ∧
    ((∀ p ∈ w.players, p.id ≠ sid) → World.disconnect sid w = w) := by
  constructor
  · unfold World.disconnect
    congr 1
    rw [List.filter_filter]
    simp only [Bool.and_self]
  · intro hnone
    unfold World.disconnect
    have hfix : (w.players.filter fun p => !(p.id == sid)) = w.players :=
      List.filter_eq_self.mpr fun p hp => by simpa using hnone p hp
    rw [hfix]

/-- Witness for `disconnect_idempotent` on the empty initial world and an
unknown session identifier. -/
theorem disconnect_idempotent_witness :
    World.disconnect "z" (World.disconnect "z" (World.init 0)) =
      World.disconnect "z" (World.init 0) ∧
    World.disconnect "z" (World.init 0) = World.init 0 :=
  ⟨(disconnect_idempotent "z" (World.init 0)).1,
   (disconnect_idempotent "z" (World.init 0)).2 (by simp [World.init])⟩
